import Mathlib

/-!
Review-queue engine of `src/screens/SyftAwayScreen.js`.

A shallow embedding of the state and the handlers of the `SiftAwayScreen`
component: the paged track loader with its seen-id set, the prefetch effect,
the button and gesture commit handlers and the movement handler.

Conventions of the embedding.

* A JavaScript value that may be `null` or `undefined` is an `Option`.
* The React state of the component is the record `Session`; every handler is a
  function from the state current at its event to the state it leaves behind,
  together with the external calls it issues.  A state setter called with a
  function (`setCurrentIndex(prev => prev + 1)`, `setTracks(prev => ...)`) acts
  on that current state.  An asynchronous handler is taken as one atomic step,
  the outcome of its external call being an argument.
* A variable a handler reads from its render scope (`tracks`, `currentIndex`,
  `selectedPlaylist`) has the value of the render that created the handler.
  Effects and `handleSwipe` are created by every render and read the current
  state.  The pan responder is created once:
  `useRef(PanResponder.create(...)).current` keeps the responder of the first
  render, and its handlers are the only ones attached to the card.
* Gesture displacements are rational numbers, and `|dx| / 120` is exact
  division.
-/

set_option autoImplicit false

namespace Syfty

/-! ## Data model -/

/-- An artist entry of a track. -/
structure Artist where
  name : String
deriving DecidableEq, Repr

/-- A track object as delivered by the catalog client.  The fields the admission
filter tests for truthiness may be missing. -/
structure Track where
  id : Option String
  name : Option String
  artists : Option (List Artist)
  uri : String
deriving DecidableEq, Repr

/-- A playlist object; `id = "liked"` is the default collection.  The field
`ref` is the identity of the object: state cells and effect dependencies
compare objects by identity. -/
structure Playlist where
  id : String
  name : String
  ref : Nat
deriving DecidableEq, Repr

/-- The two swipe directions, `'left'` and `'right'`. -/
inductive Direction where
  | left
  | right
deriving DecidableEq, Repr

/-- The verdict a commit logs: `Would keep` or `Would remove`. -/
inductive Outcome where
  | keep
  | remove
deriving DecidableEq, Repr

/-- The two request shapes of the `DELETE` call issued by `removeTrack`. -/
inductive DeleteCall where
  | likedTracks (ids : List (Option String))
  | playlistTracks (playlistId : String) (uri : String)
deriving DecidableEq, Repr

/-- A page request issued by `loadTracksFromOffset`. -/
structure PageRequest where
  playlistId : String
  limit : Nat
  offset : Nat
  isInitial : Bool
deriving DecidableEq, Repr

/-- What the catalog client answers to a page request: the `track` member of
every returned item, the saved-tracks count (read for the liked collection on an
initial load) and `tracks?.total` of the playlist metadata (read for a playlist
on a non-empty initial load). -/
structure PageResponse where
  loadedTracks : List (Option Track)
  countData : Nat
  playlistTotal : Option Nat
deriving DecidableEq, Repr

/-- The component state: the `useState` cells, the `processedTracks` ref and the
animated values. -/
structure Session where
  selectedPlaylist : Playlist
  tracks : List Track
  loading : Bool
  currentIndex : Nat
  totalTracks : Nat
  isLoadingMore : Bool
  swipeDirection : Option Direction
  processedTracks : List String
  translateX : ℚ
  translateY : ℚ
  rotate : ℚ
  overlayOpacity : ℚ
deriving DecidableEq

def BATCH_SIZE : Nat := 25

def PRELOAD_THRESHOLD : Nat := 5

/-- The state of the first render: the initial values of the `useState` cells
and refs. -/
def initialSession : Session where
  selectedPlaylist := ⟨"liked", "Liked Songs", 0⟩
  tracks := []
  loading := true
  currentIndex := 0
  totalTracks := 0
  isLoadingMore := false
  swipeDirection := none
  processedTracks := []
  translateX := 0
  translateY := 0
  rotate := 0
  overlayOpacity := 0

/-! ## The seen-id set -/

/-- The method `Set.prototype.has`. -/
def setHas (s : List String) (i : String) : Bool := s.contains i

/-- The method `Set.prototype.add`: a set keeps one copy of a value, in insertion order. -/
def setAdd (s : List String) (i : String) : List String :=
  if setHas s i then s else s ++ [i]

/-! ## Admission (`loadTracksFromOffset`, the filter and the `forEach`) -/

/-- Truthiness of a string-valued field: present and not the empty string. -/
def truthy : Option String → Bool
  | none => false
  | some v => decide (v ≠ "")

/-- The body of the filter callback on a track object:
`track.id && track.name && track.artists && track.artists.length > 0 &&
!processedTracks.current.has(track.id)`. -/
def passesFilter (processed : List String) (track : Track) : Bool :=
  match track.id, track.artists with
  | some i, some artists =>
      truthy (some i) && truthy track.name && decide (artists.length > 0) && !setHas processed i
  | _, _ => false

/-- The filter callback on a raw value; the leading `track &&` rejects `null`. -/
def filterCallback (processed : List String) : Option Track → Bool
  | none => false
  | some track => passesFilter processed track

/-- The admission filter `loadedTracks.filter(...)`, evaluated against the seen-id
set as it is before the batch; the values kept are track objects. -/
def validTracks (loadedTracks : List (Option Track)) (processed : List String) : List Track :=
  (loadedTracks.filter (filterCallback processed)).filterMap id

/-- The pass `validTracks.forEach(track => processedTracks.current.add(track.id))`. -/
def addProcessed (valid : List Track) (processed : List String) : List String :=
  valid.foldl (fun acc track => match track.id with
    | some i => setAdd acc i
    | none => acc) processed

/-- The JavaScript `a || b` on an optional number: `b` when `a` is missing or `0`. -/
def orElse (a : Option Nat) (b : Nat) : Nat :=
  match a with
  | some (n + 1) => n + 1
  | _ => b

/-- The function `loadTracksFromOffset(offset, isInitial)` on a successful
response: the total is stored only on an initial load (for a playlist only when
the page is not empty), the page is filtered, the accepted ids are added to the
seen-id set, and the buffer is replaced on an initial load and extended
otherwise. -/
def loadTracksFromOffset (s : Session) (isInitial : Bool) (resp : PageResponse) : Session :=
  let s1 : Session :=
    if s.selectedPlaylist.id = "liked" then
      if isInitial then { s with totalTracks := resp.countData } else s
    else
      if isInitial && decide (resp.loadedTracks.length > 0) then
        { s with totalTracks := orElse resp.playlistTotal resp.loadedTracks.length }
      else s
  let valid := validTracks resp.loadedTracks s1.processedTracks
  let s2 : Session := { s1 with processedTracks := addProcessed valid s1.processedTracks }
  let s3 : Session :=
    if isInitial then { s2 with tracks := valid } else { s2 with tracks := s2.tracks ++ valid }
  { s3 with translateX := 0, translateY := 0, rotate := 0, overlayOpacity := 0 }

/-- The synchronous head of `loadInitialTracks`: the reset performed when the
selected playlist changes, before the first page is requested. -/
def resetSession (s : Session) : Session :=
  { s with loading := true, currentIndex := 0, tracks := [], processedTracks := [] }

/-- Selecting a playlist: `setSelectedPlaylist(pl)` followed by the effect on
`[selectedPlaylist]` that runs `loadInitialTracks`, up to the page request.
Setting the object that is already selected changes no state and runs no
effect. -/
def selectSource (s : Session) (pl : Playlist) : Session :=
  if pl = s.selectedPlaylist then s
  else resetSession { s with selectedPlaylist := pl }

/-- Completion of `loadInitialTracks`: a response is admitted as the first page;
when the first request of the load is rejected (`none`) nothing has been stored
and the buffer is emptied; `loading` is cleared in both cases. -/
def loadInitialTracksDone (s : Session) (resp : Option PageResponse) : Session :=
  match resp with
  | some r => { loadTracksFromOffset s true r with loading := false }
  | none => { s with tracks := [], loading := false }

/-- Completion of `loadInitialTracks` when a later request of the load is
rejected: for the liked collection the count has been stored before the page
request, for a playlist nothing has; the buffer is emptied and `loading`
cleared. -/
def loadInitialTracksPageFailed (s : Session) (countData : Nat) : Session :=
  let s1 : Session :=
    if s.selectedPlaylist.id = "liked" then { s with totalTracks := countData } else s
  { s1 with tracks := [], loading := false }

/-- Completion of `loadMoreTracks`: a response is appended, a failure leaves the
buffer (a later load stores nothing before its requests); `isLoadingMore` is
cleared in both cases. -/
def loadMoreTracksDone (s : Session) (resp : Option PageResponse) : Session :=
  match resp with
  | some r => { loadTracksFromOffset s false r with isLoadingMore := false }
  | none => { s with isLoadingMore := false }

/-! ## Prefetch -/

/-- The function `loadMoreTracks` up to its page request: nothing when a load is
outstanding or the buffer has reached the total, otherwise the flag is set and
the next page is requested at `offset = tracks.length`. -/
def loadMoreTracks (s : Session) : Session × Option PageRequest :=
  if s.isLoadingMore || decide (s.tracks.length ≥ s.totalTracks) then (s, none)
  else ({ s with isLoadingMore := true },
        some ⟨s.selectedPlaylist.id, BATCH_SIZE, s.tracks.length, false⟩)

/-- The effect on `[currentIndex, tracks.length]`; the difference is a signed
number. -/
def prefetchEffect (s : Session) : Session × Option PageRequest :=
  let remainingTracks : Int := (s.tracks.length : Int) - (s.currentIndex : Int)
  if decide (remainingTracks ≤ (PRELOAD_THRESHOLD : Int)) && !s.isLoadingMore
      && decide (s.currentIndex > 0) then
    loadMoreTracks s
  else (s, none)

/-! ## Commits -/

/-- The result of a commit handler: the state it leaves, the delete calls it
issued and the verdict it logged (`none` when nothing was committed). -/
structure CommitResult where
  session : Session
  deleteCalls : List DeleteCall
  committed : Option Outcome
deriving DecidableEq

/-- The expression `tracks[currentIndex]`. -/
def currentTrack (s : Session) : Option Track := s.tracks[s.currentIndex]?

/-- The statements closing both commit handlers: the animated values and the
shown direction are reset and `setCurrentIndex(prev => prev + 1)` runs. -/
def resetAndAdvance (s : Session) : Session :=
  { s with translateX := 0, translateY := 0, rotate := 0, overlayOpacity := 0,
           swipeDirection := none, currentIndex := s.currentIndex + 1 }

/-- The springs of an incomplete swipe: every animated value returns to 0 and
the shown direction is cleared. -/
def springBack (s : Session) : Session :=
  { s with translateX := 0, translateY := 0, rotate := 0, overlayOpacity := 0,
           swipeDirection := none }

/-- The function `handleSwipe(direction)`, created by every render: nothing
without a current track; otherwise the verdict is logged, no call is made
(`removeTrack(currentTrack) not yet implemented`) and the index advances. -/
def handleSwipe (s : Session) (direction : Direction) : CommitResult :=
  match currentTrack s with
  | none => ⟨s, [], none⟩
  | some _ =>
    match direction with
    | Direction.left => ⟨resetAndAdvance s, [], some Outcome.remove⟩
    | Direction.right => ⟨resetAndAdvance s, [], some Outcome.keep⟩

/-- The function `handleButtonSwipe(direction)`. -/
def handleButtonSwipe (s : Session) (direction : Direction) : CommitResult :=
  handleSwipe s direction

/-- The values a handler reads from the render that created it. -/
structure RenderScope where
  selectedPlaylist : Playlist
  tracks : List Track
  currentIndex : Nat
deriving DecidableEq, Repr

/-- The scope of the first render: the initial values of the state cells. -/
def firstRender : RenderScope :=
  ⟨initialSession.selectedPlaylist, initialSession.tracks, initialSession.currentIndex⟩

/-- The request `removeTrack` sends for a track: by ids for the liked
collection, by uri for a playlist. -/
def deleteCallFor (selectedPlaylist : Playlist) (track : Track) : DeleteCall :=
  if selectedPlaylist.id = "liked" then DeleteCall.likedTracks [track.id]
  else DeleteCall.playlistTracks selectedPlaylist.id track.uri

/-- The function `removeTrack(track)` on a track object, with the
`selectedPlaylist` of its render: the delete call is issued; when it succeeds
every entry of the current buffer with the id of the track is filtered out,
when it fails the buffer is left as it is. -/
def removeTrack (selectedPlaylist : Playlist) (s : Session) (track : Track) (deleteOk : Bool) :
    Session × List DeleteCall :=
  if deleteOk then
    ({ s with tracks := s.tracks.filter (fun t => decide (t.id ≠ track.id)) },
      [deleteCallFor selectedPlaylist track])
  else (s, [deleteCallFor selectedPlaylist track])

/-- The text of the release handler with the completion of its animation, in the
scope of the render that created it: beyond the threshold the direction is read
off the sign of `dx` and `swipedTrack` is `tracks[currentIndex]` of the scope; a
left swipe with a `swipedTrack` runs `removeTrack`, everything else logs a keep,
and the index of the current state advances; within the threshold the visual
values spring back and nothing is committed.  The vertical displacement is not
read. -/
def releaseHandler (scope : RenderScope) (s : Session) (dx _dy : ℚ) (deleteOk : Bool) :
    CommitResult :=
  if |dx| > 120 then
    let direction := if dx > 0 then Direction.right else Direction.left
    match direction, scope.tracks[scope.currentIndex]? with
    | Direction.left, some swipedTrack =>
        ⟨resetAndAdvance (removeTrack scope.selectedPlaylist s swipedTrack deleteOk).1,
          (removeTrack scope.selectedPlaylist s swipedTrack deleteOk).2, some Outcome.remove⟩
    | _, _ => ⟨resetAndAdvance s, [], some Outcome.keep⟩
  else ⟨springBack s, [], none⟩

/-- The handler `onPanResponderRelease` attached to the card: the release
handler of the responder kept by `useRef`, the one the first render created. -/
def onPanResponderRelease (s : Session) (dx dy : ℚ) (deleteOk : Bool) : CommitResult :=
  releaseHandler firstRender s dx dy deleteOk

/-- A release event: the displacement and the outcome a delete call would
have. -/
structure Release where
  dx : ℚ
  dy : ℚ
  deleteOk : Bool
deriving DecidableEq

/-- A sequence of releases, each handled in the state the one before left. -/
def releaseAll (s : Session) (gs : List Release) : Session :=
  gs.foldl (fun acc g => (onPanResponderRelease acc g.dx g.dy g.deleteOk).session) s

/-! ## Movement feedback -/

/-- The handler `onPanResponderMove`: the animated values follow the
displacement; beyond 50 the direction is shown with opacity
`Math.min(Math.abs(dx) / 120, 1)`, otherwise no direction and opacity 0. -/
def onPanResponderMove (s : Session) (dx dy : ℚ) : Session :=
  let s1 : Session := { s with translateX := dx, translateY := dy, rotate := dx }
  if |dx| > 50 then
    let direction := if dx > 0 then Direction.right else Direction.left
    { s1 with swipeDirection := some direction, overlayOpacity := min (|dx| / 120) 1 }
  else
    { s1 with swipeDirection := none, overlayOpacity := 0 }

/-! ## Sample tracks and sessions -/

def trackA : Track := ⟨some "a", some "Song A", some [⟨"X"⟩], "uri:a"⟩

def trackB : Track := ⟨some "b", some "Song B", some [⟨"Y"⟩], "uri:b"⟩

def trackC : Track := ⟨some "c", some "Song C", some [⟨"Z"⟩], "uri:c"⟩

/-- The entry of the liked collection in the playlist row. -/
def likedPlaylist : Playlist := ⟨"liked", "Liked Songs", 1⟩

/-- The session reached by selecting the liked collection and admitting the
given tracks as its first page: the review starts at the first of them. -/
def reviewing (buffer : List Track) : Session :=
  loadInitialTracksDone (selectSource initialSession likedPlaylist)
    (some ⟨buffer.map some, buffer.length, none⟩)

/-! ## The admission contract in the words of the specification -/

/-- A raw item is valid when it is present and has a non-empty id, a non-empty
name and a non-empty sequence of artists. -/
def isValidItem : Option Track → Bool
  | some ⟨some i, some n, some artists, _⟩ => decide (i ≠ "") && decide (n ≠ "") && !artists.isEmpty
  | _ => false

/-- The id of a raw item is already in the seen-id set. -/
def idSeen (seen : List String) : Option Track → Bool
  | some ⟨some i, _, _, _⟩ => decide (i ∈ seen)
  | _ => false

/-- The contract `admit`: the items of the batch, in order, that are valid and
whose id is not in the seen-id set. -/
def admitSpec (batch : List (Option Track)) (seen : List String) : List (Option Track) :=
  batch.filter (fun x => isValidItem x && !idSeen seen x)

/-- The session invariant `position ≤ buffer.length`. -/
def PositionInv (s : Session) : Prop := s.currentIndex ≤ s.tracks.length

instance (s : Session) : Decidable (PositionInv s) := by
  unfold PositionInv; infer_instance

/-- The ids of the buffer. -/
def bufferIds (s : Session) : List (Option String) := s.tracks.map (fun t => t.id)

/-- The trigger condition of the prefetch controller in the words of the
specification. -/
def PrefetchCondition (s : Session) : Prop :=
  (s.tracks.length : Int) - (s.currentIndex : Int) ≤ 5 ∧ s.isLoadingMore = false
    ∧ 0 < s.currentIndex ∧ s.tracks.length < s.totalTracks

instance (s : Session) : Decidable (PrefetchCondition s) := by
  unfold PrefetchCondition; infer_instance

/-- Every id of the buffer is recorded in the seen-id set. -/
def SeenCovers (s : Session) : Prop :=
  ∀ t ∈ s.tracks, ∀ i, t.id = some i → i ∈ s.processedTracks

/-- A playlist other than the liked collection. -/
def otherPlaylist : Playlist := ⟨"p1", "Road trip", 2⟩

/-- A session on the liked collection with one of 100 tracks loaded. -/
def likedSession : Session :=
  loadInitialTracksDone (selectSource initialSession likedPlaylist)
    (some ⟨[some trackA], 100, none⟩)

/-- The track number `n` of a page: its id is `n + 1` letters long. -/
def numberedTrack (n : Nat) : Track :=
  ⟨some (String.mk (List.replicate (n + 1) 'x')), some "Song", some [⟨"X"⟩], "uri"⟩

/-- A session with 25 of 100 tracks loaded and the index at 21. -/
def prefetchSession : Session :=
  { loadInitialTracksDone (selectSource initialSession likedPlaylist)
      (some ⟨(List.range 25).map (fun n => some (numberedTrack n)), 100, none⟩)
    with currentIndex := 21 }

/-! ## Admission -/

theorem filterCallback_eq_spec (seen : List String) (x : Option Track) :
    filterCallback seen x = (isValidItem x && !idSeen seen x) := by
  rcases x with _ | ⟨i, n, artists, uri⟩
  · rfl
  · rcases i with _ | i <;> rcases n with _ | n <;> rcases artists with _ | artists <;>
      simp [filterCallback, passesFilter, truthy, isValidItem, idSeen, setHas]
    cases artists <;> simp

theorem validTracks_cons (x : Option Track) (xs : List (Option Track)) (seen : List String) :
    validTracks (x :: xs) seen =
      match x with
      | some t => if passesFilter seen t then t :: validTracks xs seen else validTracks xs seen
      | none => validTracks xs seen := by
  rcases x with _ | t
  · simp [validTracks, filterCallback]
  · by_cases h : passesFilter seen t <;> simp [validTracks, filterCallback, h]

theorem mem_validTracks {batch : List (Option Track)} {seen : List String} {t : Track} :
    t ∈ validTracks batch seen ↔ some t ∈ batch ∧ passesFilter seen t = true := by
  simp [validTracks, List.mem_filterMap, List.mem_filter, filterCallback]

theorem passesFilter_id {seen : List String} {t : Track} (h : passesFilter seen t = true) :
    ∃ i, t.id = some i ∧ i ≠ "" ∧ i ∉ seen := by
  rcases t with ⟨i, n, artists, uri⟩
  rcases i with _ | i <;> rcases artists with _ | artists <;>
    simp [passesFilter, truthy, setHas] at h
  exact ⟨i, rfl, h.1.1.1, h.2⟩

theorem validTracks_map_some (batch : List (Option Track)) (seen : List String) :
    (validTracks batch seen).map some = batch.filter (filterCallback seen) := by
  induction batch with
  | nil => rfl
  | cons x xs ih =>
    rw [validTracks_cons]
    rcases x with _ | u
    · simpa [filterCallback] using ih
    · by_cases h : passesFilter seen u <;> simp [filterCallback, h, ih]


theorem passesFilter_mono {seen seen2 : List String} {t : Track}
    (hsub : ∀ i, i ∈ seen → i ∈ seen2) (h : passesFilter seen2 t = true) :
    passesFilter seen t = true := by
  rcases t with ⟨i, n, artists, uri⟩
  rcases i with _ | i <;> rcases artists with _ | artists <;>
    simp [passesFilter, truthy, setHas] at h ⊢
  exact ⟨h.1, fun hi => h.2 (hsub i hi)⟩

theorem mem_setAdd {s : List String} {i j : String} : j ∈ setAdd s i ↔ j ∈ s ∨ j = i := by
  unfold setAdd setHas
  by_cases h : i ∈ s
  · have hc : s.contains i = true := by simpa using h
    simp only [hc, if_true]
    constructor
    · exact Or.inl
    · rintro (hj | rfl)
      · exact hj
      · exact h
  · simp [h]

theorem mem_addProcessed {valid : List Track} {s : List String} {j : String} :
    j ∈ addProcessed valid s ↔ j ∈ s ∨ ∃ t ∈ valid, t.id = some j := by
  induction valid generalizing s with
  | nil => simp [addProcessed]
  | cons v vs ih =>
    have hstep : addProcessed (v :: vs) s =
        addProcessed vs (match v.id with | some i => setAdd s i | none => s) := rfl
    rw [hstep, ih]
    rcases hv : v.id with _ | i
    · simp [hv]
    · simp only [mem_setAdd, List.mem_cons, exists_eq_or_imp, hv, Option.some.injEq]
      constructor
      · rintro ((h | rfl) | h)
        · exact Or.inl h
        · exact Or.inr (Or.inl rfl)
        · exact Or.inr (Or.inr h)
      · rintro (h | rfl | h)
        · exact Or.inl (Or.inl h)
        · exact Or.inl (Or.inr rfl)
        · exact Or.inr h

/-- C3: the admission filter yields exactly the items of the batch, in the order
of the batch, that are valid and whose id is not in the seen-id set; hence it is
a sublist of the batch, none of its ids is in the seen-id set, and it is no
longer than the batch. -/
theorem admit_is_valid_unseen_sublist (batch : List (Option Track)) (seen : List String) :
    (validTracks batch seen).map some = admitSpec batch seen
    ∧ List.Sublist ((validTracks batch seen).map some) batch
    ∧ (∀ t ∈ validTracks batch seen, ∃ i, t.id = some i ∧ i ∉ seen)
    ∧ (validTracks batch seen).length ≤ batch.length := by
  have heq : (validTracks batch seen).map some = admitSpec batch seen := by
    rw [validTracks_map_some, admitSpec]
    congr 1
    funext x
    exact filterCallback_eq_spec seen x
  have hsub : List.Sublist ((validTracks batch seen).map some) batch := by
    rw [validTracks_map_some]
    exact List.filter_sublist batch
  refine ⟨heq, hsub, ?_, ?_⟩
  · intro t ht
    obtain ⟨i, hi, _, hns⟩ := passesFilter_id (mem_validTracks.mp ht).2
    exact ⟨i, hi, hns⟩
  · simpa using hsub.length_le

/-- C4: once the ids accepted from a batch have been added to the seen-id set,
admitting the same batch again accepts nothing and adds nothing to the set. -/
theorem admit_twice_is_empty (batch : List (Option Track)) (seen : List String) :
    validTracks batch (addProcessed (validTracks batch seen) seen) = []
    ∧ addProcessed (validTracks batch (addProcessed (validTracks batch seen) seen))
        (addProcessed (validTracks batch seen) seen) = addProcessed (validTracks batch seen) seen := by
  have hnil : validTracks batch (addProcessed (validTracks batch seen) seen) = [] := by
    rw [List.eq_nil_iff_forall_not_mem]
    intro t ht
    obtain ⟨hmem, hpass⟩ := mem_validTracks.mp ht
    have hfirst : passesFilter seen t = true :=
      passesFilter_mono (fun i hi => mem_addProcessed.mpr (Or.inl hi)) hpass
    obtain ⟨i, hi, _, hns⟩ := passesFilter_id hpass
    exact hns (mem_addProcessed.mpr (Or.inr ⟨t, mem_validTracks.mpr ⟨hmem, hfirst⟩, hi⟩))
  refine ⟨hnil, ?_⟩
  rw [hnil]
  rfl


/-! ## Prefetch -/

/-- C6: the prefetch effect issues a page request exactly under the trigger
condition; it then sets `isLoadingMore` and asks for the page at
`offset = tracks.length` with `limit = 25` as a non-initial load, and otherwise
changes nothing.  With 25 of 100 tracks loaded and the index at 21 the request
at offset 25 is issued. -/
theorem prefetch_request_iff_condition (s : Session) :
    ((prefetchEffect s).2.isSome = true ↔ PrefetchCondition s)
    ∧ (PrefetchCondition s →
        prefetchEffect s = ({ s with isLoadingMore := true },
          some ⟨s.selectedPlaylist.id, 25, s.tracks.length, false⟩))
    ∧ (¬ PrefetchCondition s → prefetchEffect s = (s, none))
    ∧ (s.totalTracks = 100 → s.tracks.length = 25 → s.isLoadingMore = false →
        s.currentIndex = 21 →
        (prefetchEffect s).2 = some ⟨s.selectedPlaylist.id, 25, 25, false⟩) := by
  have hyes : PrefetchCondition s →
      prefetchEffect s = ({ s with isLoadingMore := true },
        some ⟨s.selectedPlaylist.id, 25, s.tracks.length, false⟩) := by
    rintro ⟨h1, h2, h3, h4⟩
    have h4n : ¬ s.tracks.length ≥ s.totalTracks := by omega
    simp [prefetchEffect, loadMoreTracks, PRELOAD_THRESHOLD, BATCH_SIZE, h1, h2, h3, h4n]
  have hno : ¬ PrefetchCondition s → prefetchEffect s = (s, none) := by
    intro hc
    unfold prefetchEffect loadMoreTracks
    by_cases h1 : (s.tracks.length : Int) - (s.currentIndex : Int) ≤ 5
    · by_cases h2 : s.isLoadingMore = false
      · by_cases h3 : 0 < s.currentIndex
        · have h4 : s.tracks.length ≥ s.totalTracks := by
            by_contra h4
            exact hc ⟨h1, h2, h3, by omega⟩
          simp [PRELOAD_THRESHOLD, h1, h2, h3, h4]
        · simp [PRELOAD_THRESHOLD, h3]
      · simp [PRELOAD_THRESHOLD, h2]
    · simp [PRELOAD_THRESHOLD, h1]
  refine ⟨?_, hyes, hno, ?_⟩
  · by_cases hc : PrefetchCondition s
    · simp [hyes hc, hc]
    · simp [hno hc, hc]
  · intro h1 h2 h3 h4
    have hc : PrefetchCondition s := by
      refine ⟨?_, h3, ?_, ?_⟩ <;> omega
    rw [hyes hc, h2]

/-! ## Gesture release -/

theorem release_beyond (s : Session) (dx dy : ℚ) (ok : Bool) (h : 120 < |dx|) :
    onPanResponderRelease s dx dy ok = ⟨resetAndAdvance s, [], some Outcome.keep⟩ := by
  have habs : |dx| > 120 := h
  unfold onPanResponderRelease releaseHandler
  rw [if_pos habs]
  by_cases hpos : dx > 0 <;> simp [hpos, firstRender, initialSession]

theorem release_within (s : Session) (dx dy : ℚ) (ok : Bool) (h : |dx| ≤ 120) :
    onPanResponderRelease s dx dy ok = ⟨springBack s, [], none⟩ := by
  have habs : ¬ |dx| > 120 := not_lt.mpr h
  simp [onPanResponderRelease, releaseHandler, habs]

theorem releaseAll_commits (gs : List Release) (s : Session)
    (hcommit : ∀ g ∈ gs, 120 < |g.dx|) :
    (releaseAll s gs).tracks = s.tracks
    ∧ (releaseAll s gs).currentIndex = s.currentIndex + gs.length := by
  induction gs generalizing s with
  | nil => simp [releaseAll]
  | cons g rest ih =>
    have hg : 120 < |g.dx| := hcommit g (List.mem_cons_self g rest)
    have hrest : ∀ x ∈ rest, 120 < |x.dx| := fun x hx => hcommit x (List.mem_cons_of_mem g hx)
    have hstep : releaseAll s (g :: rest)
        = releaseAll (onPanResponderRelease s g.dx g.dy g.deleteOk).session rest := rfl
    rw [hstep, release_beyond s g.dx g.dy g.deleteOk hg]
    obtain ⟨h1, h2⟩ := ih (resetAndAdvance s) hrest
    refine ⟨by rw [h1]; rfl, ?_⟩
    rw [h2]
    simp only [resetAndAdvance, List.length_cons]
    omega

/-! ## Movement feedback -/

/-- C8: a movement sample with `|dx| ≤ 50` shows no direction with opacity 0;
beyond 50 it shows right for positive and left for negative `dx` with opacity
`min (|dx| / 120) 1`.  The opacity lies between 0 and 1, exceeds `5 / 12`
whenever a direction is shown, and is 1 exactly when `|dx| ≥ 120`. -/
theorem move_feedback_signal (s : Session) (dx dy : ℚ) :
    (|dx| ≤ 50 → (onPanResponderMove s dx dy).swipeDirection = none
        ∧ (onPanResponderMove s dx dy).overlayOpacity = 0)
    ∧ (50 < |dx| → 0 < dx → (onPanResponderMove s dx dy).swipeDirection = some Direction.right)
    ∧ (50 < |dx| → dx < 0 → (onPanResponderMove s dx dy).swipeDirection = some Direction.left)
    ∧ (50 < |dx| → (onPanResponderMove s dx dy).overlayOpacity = min (|dx| / 120) 1)
    ∧ 0 ≤ (onPanResponderMove s dx dy).overlayOpacity
    ∧ (onPanResponderMove s dx dy).overlayOpacity ≤ 1
    ∧ ((onPanResponderMove s dx dy).swipeDirection ≠ none →
        5 / 12 < (onPanResponderMove s dx dy).overlayOpacity)
    ∧ ((onPanResponderMove s dx dy).overlayOpacity = 1 ↔ 120 ≤ |dx|) := by
  by_cases h : |dx| > 50
  · have hop : (onPanResponderMove s dx dy).overlayOpacity = min (|dx| / 120) 1 := by
      simp [onPanResponderMove, h]
    have hdir : (onPanResponderMove s dx dy).swipeDirection
        = some (if dx > 0 then Direction.right else Direction.left) := by
      simp [onPanResponderMove, h]
    have hdiv : 5 / 12 < |dx| / 120 := by
      rw [lt_div_iff₀ (by norm_num)]
      linarith
    refine ⟨fun h2 => absurd h (not_lt.mpr h2), ?_, ?_, fun _ => hop, ?_, ?_, ?_, ?_⟩
    · intro _ hpos
      rw [hdir, if_pos hpos]
    · intro _ hneg
      have hn : ¬ dx > 0 := by linarith
      rw [hdir, if_neg hn]
    · rw [hop]
      exact le_min (by positivity) (by norm_num)
    · rw [hop]
      exact min_le_right _ _
    · intro _
      rw [hop]
      exact lt_min hdiv (by norm_num)
    · rw [hop]
      constructor
      · intro h1
        have h2 : (1 : ℚ) ≤ |dx| / 120 := by
          rw [← h1]
          exact min_le_left _ _
        rw [le_div_iff₀ (by norm_num)] at h2
        linarith
      · intro h1
        apply min_eq_right
        rw [le_div_iff₀ (by norm_num)]
        linarith
  · have hop : (onPanResponderMove s dx dy).overlayOpacity = 0 := by
      simp [onPanResponderMove, h]
    have hdir : (onPanResponderMove s dx dy).swipeDirection = none := by
      simp [onPanResponderMove, h]
    have hle : |dx| ≤ 50 := not_lt.mp h
    refine ⟨fun _ => ⟨hdir, hop⟩, fun h2 => absurd h2 h, fun h2 => absurd h2 h,
      fun h2 => absurd h2 h, ?_, ?_, ?_, ?_⟩
    · rw [hop]
    · rw [hop]
      norm_num
    · intro h2
      exact absurd hdir h2
    · rw [hop]
      constructor
      · intro h1
        norm_num at h1
      · intro h1
        linarith


/-! ## Gesture commits -/

/-- C1: from the start of a review (index 0) of a buffer with pairwise distinct
ids, along any sequence of gesture commits in either direction and with either
outcome of a delete call, the buffer stays as it was and the track presented
after `k` commits, the one the next commit acts on, is the track at place `k`
of the buffer in arrival order; the tracks presented at two different commits
are different. -/
theorem gesture_commits_present_in_order (s : Session) (gs : List Release)
    (hstart : s.currentIndex = 0) (hnd : (bufferIds s).Nodup)
    (hcommit : ∀ g ∈ gs, 120 < |g.dx|) :
    (∀ k, k ≤ gs.length →
        (releaseAll s (gs.take k)).tracks = s.tracks
        ∧ (releaseAll s (gs.take k)).currentIndex = k
        ∧ currentTrack (releaseAll s (gs.take k)) = s.tracks[k]?)
    ∧ (∀ j k, j < k → k ≤ gs.length → k < s.tracks.length →
        currentTrack (releaseAll s (gs.take j)) ≠ currentTrack (releaseAll s (gs.take k))) := by
  have hrun : ∀ k, k ≤ gs.length →
      (releaseAll s (gs.take k)).tracks = s.tracks
      ∧ (releaseAll s (gs.take k)).currentIndex = k
      ∧ currentTrack (releaseAll s (gs.take k)) = s.tracks[k]? := by
    intro k hk
    have hsub : ∀ g ∈ gs.take k, 120 < |g.dx| := fun g hg => hcommit g (List.mem_of_mem_take hg)
    obtain ⟨h1, h2⟩ := releaseAll_commits (gs.take k) s hsub
    have hlen : (gs.take k).length = k := by
      rw [List.length_take]
      exact Nat.min_eq_left hk
    have hix : (releaseAll s (gs.take k)).currentIndex = k := by
      rw [h2, hstart, hlen, Nat.zero_add]
    refine ⟨h1, hix, ?_⟩
    unfold currentTrack
    rw [h1, hix]
  refine ⟨hrun, ?_⟩
  intro j k hjk hk hlt
  rw [(hrun j (by omega)).2.2, (hrun k hk).2.2]
  have hmap : (s.tracks.map (fun t => t.id)).Nodup := hnd
  have hnd2 : s.tracks.Nodup := List.Nodup.of_map (fun t => t.id) hmap
  exact List.nodup_iff_getElem?_ne_getElem?.mp hnd2 j k hjk hlt

/-- C7: on the buffer `[a, b]` with `a` under review, a release at `dx = -150`
issues no delete call and logs a keep: the buffer stays `[a, b]` and the index
advances to 1, the same result as the release at `dx = 150`; the release at
`dx = 80` commits nothing. -/
theorem gesture_left_commit_sends_no_delete :
    currentTrack (reviewing [trackA, trackB]) = some trackA
    ∧ onPanResponderRelease (reviewing [trackA, trackB]) (-150) 0 true
        = ⟨resetAndAdvance (reviewing [trackA, trackB]), [], some Outcome.keep⟩
    ∧ (onPanResponderRelease (reviewing [trackA, trackB]) (-150) 0 true).deleteCalls = []
    ∧ (onPanResponderRelease (reviewing [trackA, trackB]) (-150) 0 true).committed
        = some Outcome.keep
    ∧ (onPanResponderRelease (reviewing [trackA, trackB]) (-150) 0 true).session.tracks
        = [trackA, trackB]
    ∧ (onPanResponderRelease (reviewing [trackA, trackB]) (-150) 0 true).session.currentIndex = 1
    ∧ onPanResponderRelease (reviewing [trackA, trackB]) 150 0 true
        = ⟨resetAndAdvance (reviewing [trackA, trackB]), [], some Outcome.keep⟩
    ∧ onPanResponderRelease (reviewing [trackA, trackB]) 80 0 true
        = ⟨springBack (reviewing [trackA, trackB]), [], none⟩ := by
  decide

/-! ## Fields after a page load -/

theorem loadTracksFromOffset_currentIndex (s : Session) (isInitial : Bool) (r : PageResponse) :
    (loadTracksFromOffset s isInitial r).currentIndex = s.currentIndex := by
  unfold loadTracksFromOffset
  cases isInitial
  · simp
  · simp
    split_ifs <;> rfl

theorem loadTracksFromOffset_tracks_initial (s : Session) (r : PageResponse) :
    (loadTracksFromOffset s true r).tracks = validTracks r.loadedTracks s.processedTracks := by
  unfold loadTracksFromOffset
  simp
  split_ifs <;> rfl

theorem loadTracksFromOffset_tracks_more (s : Session) (r : PageResponse) :
    (loadTracksFromOffset s false r).tracks
      = s.tracks ++ validTracks r.loadedTracks s.processedTracks := by
  unfold loadTracksFromOffset
  simp

theorem loadTracksFromOffset_processed (s : Session) (isInitial : Bool) (r : PageResponse) :
    (loadTracksFromOffset s isInitial r).processedTracks
      = addProcessed (validTracks r.loadedTracks s.processedTracks) s.processedTracks := by
  unfold loadTracksFromOffset
  cases isInitial
  · simp
  · simp
    split_ifs <;> rfl

theorem loadTracksFromOffset_total_more (s : Session) (r : PageResponse) :
    (loadTracksFromOffset s false r).totalTracks = s.totalTracks := by
  unfold loadTracksFromOffset
  simp

theorem loadTracksFromOffset_total_empty_playlist (s : Session) (isInitial : Bool)
    (r : PageResponse) (hpl : s.selectedPlaylist.id ≠ "liked") (hr : r.loadedTracks = []) :
    (loadTracksFromOffset s isInitial r).totalTracks = s.totalTracks := by
  unfold loadTracksFromOffset
  cases isInitial <;> simp [hpl, hr]

/-! ## The index invariant -/

theorem currentIndex_lt_of_currentTrack {s : Session} {t : Track}
    (h : currentTrack s = some t) : s.currentIndex < s.tracks.length := by
  unfold currentTrack at h
  exact (List.getElem?_eq_some.mp h).1

theorem positionInv_selectSource (s : Session) (pl : Playlist) (h : PositionInv s) :
    PositionInv (selectSource s pl) := by
  unfold selectSource
  split_ifs
  · exact h
  · simp [PositionInv, resetSession]

theorem positionInv_firstPage (s : Session) (resp : Option PageResponse)
    (h : s.currentIndex = 0) : PositionInv (loadInitialTracksDone s resp) := by
  rcases resp with _ | r
  · simp [PositionInv, loadInitialTracksDone, h]
  · have hix := loadTracksFromOffset_currentIndex s true r
    simp only [PositionInv, loadInitialTracksDone]
    rw [hix, h]
    exact Nat.zero_le _

theorem positionInv_firstPageFailed (s : Session) (countData : Nat)
    (h : s.currentIndex = 0) : PositionInv (loadInitialTracksPageFailed s countData) := by
  unfold loadInitialTracksPageFailed PositionInv
  split_ifs <;> simp [h]

theorem positionInv_laterPage (s : Session) (resp : Option PageResponse) (h : PositionInv s) :
    PositionInv (loadMoreTracksDone s resp) := by
  rcases resp with _ | r
  · simpa [PositionInv, loadMoreTracksDone] using h
  · simp only [PositionInv, loadMoreTracksDone]
    rw [loadTracksFromOffset_currentIndex, loadTracksFromOffset_tracks_more, List.length_append]
    exact Nat.le_trans h (Nat.le_add_right _ _)

theorem positionInv_prefetch (s : Session) (h : PositionInv s) :
    PositionInv (prefetchEffect s).1 := by
  unfold prefetchEffect loadMoreTracks
  simp only
  split_ifs <;> exact h

theorem positionInv_button (s : Session) (d : Direction) (h : PositionInv s) :
    PositionInv (handleButtonSwipe s d).session := by
  unfold handleButtonSwipe handleSwipe
  rcases hc : currentTrack s with _ | t
  · simpa using h
  · have hlt := currentIndex_lt_of_currentTrack hc
    cases d <;> simpa [PositionInv, resetAndAdvance] using hlt

theorem positionInv_gesture (s : Session) (t : Track) (dx dy : ℚ) (ok : Bool)
    (ht : currentTrack s = some t) :
    PositionInv (onPanResponderRelease s dx dy ok).session := by
  have hlt := currentIndex_lt_of_currentTrack ht
  rcases lt_or_le 120 |dx| with h | h
  · rw [release_beyond s dx dy ok h]
    simpa [PositionInv, resetAndAdvance] using hlt
  · rw [release_within s dx dy ok h]
    simpa [PositionInv, springBack] using Nat.le_of_lt hlt

/-- C2: the invariant `currentIndex ≤ tracks.length` holds in the initial state
and is preserved by selecting a source, by the admission of a first page into
the reset state (also when a request of the load is rejected), by the admission
of a later page, by the prefetch effect, by a button commit, and by a gesture
release over a current track at any displacement, a keep, a remove or an
incomplete swipe. -/
theorem position_invariant_preserved :
    PositionInv initialSession
    ∧ (∀ (s : Session) (pl : Playlist), PositionInv s → PositionInv (selectSource s pl))
    ∧ (∀ (s : Session) (resp : Option PageResponse), s.currentIndex = 0 →
        PositionInv (loadInitialTracksDone s resp))
    ∧ (∀ (s : Session) (countData : Nat), s.currentIndex = 0 →
        PositionInv (loadInitialTracksPageFailed s countData))
    ∧ (∀ (s : Session) (resp : Option PageResponse), PositionInv s →
        PositionInv (loadMoreTracksDone s resp))
    ∧ (∀ s : Session, PositionInv s → PositionInv (prefetchEffect s).1)
    ∧ (∀ (s : Session) (d : Direction), PositionInv s →
        PositionInv (handleButtonSwipe s d).session)
    ∧ (∀ (s : Session) (t : Track) (dx dy : ℚ) (ok : Bool), currentTrack s = some t →
        PositionInv (onPanResponderRelease s dx dy ok).session) :=
  ⟨by decide, positionInv_selectSource, positionInv_firstPage, positionInv_firstPageFailed,
    positionInv_laterPage, positionInv_prefetch, positionInv_button, positionInv_gesture⟩

/-! ## Distinct ids in the buffer -/

theorem seenCovers_selectSource (s : Session) (pl : Playlist) (h : SeenCovers s) :
    SeenCovers (selectSource s pl) := by
  unfold selectSource
  split_ifs
  · exact h
  · intro t ht
    simp [resetSession] at ht

/-- A later page whose accepted tracks have pairwise distinct ids keeps the ids
of the buffer pairwise distinct: no accepted id is one recorded before. -/
theorem laterPage_keeps_ids_distinct (s : Session) (r : PageResponse)
    (hcov : SeenCovers s) (hnd : (bufferIds s).Nodup)
    (hb : ((validTracks r.loadedTracks s.processedTracks).map (fun t => t.id)).Nodup) :
    (bufferIds (loadTracksFromOffset s false r)).Nodup
    ∧ SeenCovers (loadTracksFromOffset s false r) := by
  constructor
  · unfold bufferIds
    rw [loadTracksFromOffset_tracks_more, List.map_append, List.nodup_append]
    refine ⟨hnd, hb, ?_⟩
    intro a ha hv
    obtain ⟨u, hu, rfl⟩ := List.mem_map.mp ha
    obtain ⟨v, hv2, hvid⟩ := List.mem_map.mp hv
    obtain ⟨i, hi, _, hns⟩ := passesFilter_id (mem_validTracks.mp hv2).2
    exact hns (hcov u hu i (by rw [← hvid, hi]))
  · intro t ht i hi
    rw [loadTracksFromOffset_processed]
    rw [loadTracksFromOffset_tracks_more, List.mem_append] at ht
    rcases ht with ht | ht
    · exact mem_addProcessed.mpr (Or.inl (hcov t ht i hi))
    · exact mem_addProcessed.mpr (Or.inr ⟨t, ht, hi⟩)

/-- A first page whose accepted tracks have pairwise distinct ids gives a buffer
with pairwise distinct ids, all recorded in the seen-id set. -/
theorem firstPage_ids_distinct (s : Session) (r : PageResponse)
    (hb : ((validTracks r.loadedTracks s.processedTracks).map (fun t => t.id)).Nodup) :
    (bufferIds (loadTracksFromOffset s true r)).Nodup
    ∧ SeenCovers (loadTracksFromOffset s true r) := by
  constructor
  · unfold bufferIds
    rw [loadTracksFromOffset_tracks_initial]
    exact hb
  · intro t ht i hi
    rw [loadTracksFromOffset_processed]
    rw [loadTracksFromOffset_tracks_initial] at ht
    exact mem_addProcessed.mpr (Or.inr ⟨t, ht, hi⟩)

/-- C5: a first page of a playlist that holds the track `a` twice is admitted
whole into a freshly reset session: the buffer is `[a, a]`, two items with the
same id, the second occurrence being admitted as well as the first. -/
theorem duplicate_within_page_admitted :
    (selectSource initialSession otherPlaylist).tracks = []
    ∧ (selectSource initialSession otherPlaylist).processedTracks = []
    ∧ (loadInitialTracksDone (selectSource initialSession otherPlaylist)
        (some ⟨[some trackA, some trackA], 0, some 2⟩)).tracks = [trackA, trackA]
    ∧ ¬ (bufferIds (loadInitialTracksDone (selectSource initialSession otherPlaylist)
        (some ⟨[some trackA, some trackA], 0, some 2⟩))).Nodup := by
  decide

/-! ## Source selection -/

/-- Selecting another source empties buffer and seen-id set and zeroes the
index, and leaves the stored total as it was. -/
theorem selectSource_fields (s : Session) (pl : Playlist) (h : pl ≠ s.selectedPlaylist) :
    (selectSource s pl).tracks = [] ∧ (selectSource s pl).processedTracks = []
    ∧ (selectSource s pl).currentIndex = 0
    ∧ (selectSource s pl).totalTracks = s.totalTracks := by
  simp [selectSource, resetSession, h]

/-- C9: from a session on the liked collection with a total of 100, selecting a
playlist empties buffer and seen-id set and zeroes the index, but the total
stays 100; it is still 100 after the empty first page of the playlist has been
admitted. -/
theorem reset_retains_previous_total :
    likedSession.totalTracks = 100
    ∧ (selectSource likedSession otherPlaylist).tracks = []
    ∧ (selectSource likedSession otherPlaylist).processedTracks = []
    ∧ (selectSource likedSession otherPlaylist).currentIndex = 0
    ∧ (selectSource likedSession otherPlaylist).totalTracks = 100
    ∧ (loadInitialTracksDone (selectSource likedSession otherPlaylist)
        (some ⟨[], 0, some 0⟩)).totalTracks = 100 := by
  decide

/-! ## Button commit and gesture commit -/

/-- The button commit never issues a delete call and never changes the buffer. -/
theorem handleButtonSwipe_no_delete (s : Session) (d : Direction) :
    (handleButtonSwipe s d).deleteCalls = [] ∧ (handleButtonSwipe s d).session.tracks = s.tracks := by
  unfold handleButtonSwipe handleSwipe
  rcases currentTrack s with _ | t
  · simp
  · cases d <;> simp [resetAndAdvance]

/-- C10: over a current track, a button commit and the gesture commit of the
same outcome (right beyond 120 for a keep, left beyond 120 for a remove) leave
the same session: the buffer as it was, the index advanced by one, and no
delete call on either path. -/
theorem button_commit_matches_gesture_commit (s : Session) (t : Track) (d : Direction)
    (dx dy : ℚ) (ok : Bool) (ht : currentTrack s = some t)
    (hd : (d = Direction.right ∧ 120 < dx) ∨ (d = Direction.left ∧ dx < -120)) :
    (handleButtonSwipe s d).session = (onPanResponderRelease s dx dy ok).session
    ∧ (handleButtonSwipe s d).deleteCalls = (onPanResponderRelease s dx dy ok).deleteCalls
    ∧ (handleButtonSwipe s d).session.tracks = s.tracks
    ∧ (onPanResponderRelease s dx dy ok).session.tracks = s.tracks
    ∧ (handleButtonSwipe s d).session.currentIndex = s.currentIndex + 1
    ∧ (onPanResponderRelease s dx dy ok).session.currentIndex = s.currentIndex + 1
    ∧ (handleButtonSwipe s d).deleteCalls = []
    ∧ (onPanResponderRelease s dx dy ok).deleteCalls = [] := by
  have habs : 120 < |dx| := by
    rcases hd with ⟨_, h⟩ | ⟨_, h⟩
    · exact lt_of_lt_of_le h (le_abs_self dx)
    · have := neg_le_abs dx
      linarith
  have hb : handleButtonSwipe s d
      = ⟨resetAndAdvance s, [], some (match d with
          | Direction.left => Outcome.remove
          | Direction.right => Outcome.keep)⟩ := by
    unfold handleButtonSwipe handleSwipe
    rw [ht]
    cases d <;> rfl
  rw [hb, release_beyond s dx dy ok habs]
  simp [resetAndAdvance]

/-! ## Instances -/

theorem admit_is_valid_unseen_sublist_witness :
    (validTracks [some trackA, none, some trackB, some trackC] ["b"]).map some
        = admitSpec [some trackA, none, some trackB, some trackC] ["b"]
    ∧ validTracks [some trackA, none, some trackB, some trackC] ["b"] = [trackA, trackC] :=
  ⟨(admit_is_valid_unseen_sublist [some trackA, none, some trackB, some trackC] ["b"]).1,
    by decide⟩

theorem admit_twice_is_empty_witness :
    addProcessed (validTracks [some trackA, some trackB] ["b"]) ["b"] = ["b", "a"]
    ∧ validTracks [some trackA, some trackB]
        (addProcessed (validTracks [some trackA, some trackB] ["b"]) ["b"]) = [] :=
  ⟨by decide, (admit_twice_is_empty [some trackA, some trackB] ["b"]).1⟩

theorem prefetch_request_iff_condition_witness :
    prefetchSession.totalTracks = 100 ∧ prefetchSession.tracks.length = 25
    ∧ prefetchSession.isLoadingMore = false ∧ prefetchSession.currentIndex = 21
    ∧ (prefetchEffect prefetchSession).2 = some ⟨"liked", 25, 25, false⟩ :=
  ⟨by decide, by decide, by decide, by decide,
    (prefetch_request_iff_condition prefetchSession).2.2.2 (by decide) (by decide) (by decide)
      (by decide)⟩

theorem move_feedback_signal_witness :
    50 < |(60 : ℚ)|
    ∧ (onPanResponderMove initialSession 60 0).overlayOpacity = min (|(60 : ℚ)| / 120) 1 :=
  ⟨by norm_num, (move_feedback_signal initialSession 60 0).2.2.2.1 (by norm_num)⟩

theorem gesture_commits_present_in_order_witness :
    (reviewing [trackA, trackB, trackC]).currentIndex = 0
    ∧ (bufferIds (reviewing [trackA, trackB, trackC])).Nodup
    ∧ (∀ g ∈ [(⟨-150, 0, true⟩ : Release), ⟨150, 0, true⟩, ⟨-130, 4, false⟩], 120 < |g.dx|)
    ∧ currentTrack (releaseAll (reviewing [trackA, trackB, trackC])
        ([(⟨-150, 0, true⟩ : Release), ⟨150, 0, true⟩, ⟨-130, 4, false⟩].take 1))
        = (reviewing [trackA, trackB, trackC]).tracks[1]?
    ∧ (reviewing [trackA, trackB, trackC]).tracks[1]? = some trackB :=
  ⟨by decide, by decide, by decide,
    ((gesture_commits_present_in_order (reviewing [trackA, trackB, trackC])
      [⟨-150, 0, true⟩, ⟨150, 0, true⟩, ⟨-130, 4, false⟩] (by decide) (by decide)
      (by decide)).1 1 (by decide)).2.2,
    by decide⟩

theorem position_invariant_preserved_witness :
    currentTrack (reviewing [trackA]) = some trackA
    ∧ PositionInv (onPanResponderRelease (reviewing [trackA]) (-150) 0 true).session
    ∧ (onPanResponderRelease (reviewing [trackA]) (-150) 0 true).session.currentIndex = 1
    ∧ (onPanResponderRelease (reviewing [trackA]) (-150) 0 true).session.tracks = [trackA] :=
  ⟨by decide,
    position_invariant_preserved.2.2.2.2.2.2.2 (reviewing [trackA]) trackA (-150) 0 true
      (by decide),
    by decide, by decide⟩

theorem button_commit_matches_gesture_commit_witness :
    currentTrack (reviewing [trackA, trackB]) = some trackA
    ∧ (-150 : ℚ) < -120
    ∧ (handleButtonSwipe (reviewing [trackA, trackB]) Direction.left).session
        = (onPanResponderRelease (reviewing [trackA, trackB]) (-150) 0 true).session
    ∧ (handleButtonSwipe (reviewing [trackA, trackB]) Direction.left).deleteCalls
        = (onPanResponderRelease (reviewing [trackA, trackB]) (-150) 0 true).deleteCalls :=
  ⟨by decide, by norm_num,
    (button_commit_matches_gesture_commit (reviewing [trackA, trackB]) trackA Direction.left
      (-150) 0 true (by decide) (Or.inr ⟨rfl, by norm_num⟩)).1,
    (button_commit_matches_gesture_commit (reviewing [trackA, trackB]) trackA Direction.left
      (-150) 0 true (by decide) (Or.inr ⟨rfl, by norm_num⟩)).2.1⟩

end Syfty
